import Mathlib

/-!
Verification development for the WiggleBot task-accountability bot
(`main_v3.py`, with the v2 reminder loop from `main_v2.py` where noted).

The Python program is shallowly embedded:

* Python strings are Lean `String`s; `str.strip`, `str.splitlines`,
  `str.split(":", 1)`, `str.lower` and `"\n" in s` are re-implemented as
  structural recursions over `String.data` (`stripStr`, `splitNL`,
  `splitTwo`, `lowerStr`), so that every definition evaluates inside the
  kernel.  `splitlines` is modelled as splitting on `'\n'`; the only other
  separator that occurs in practice, `"\r\n"`, gives the same result
  because each line is stripped and empty lines are dropped afterwards.
* The per-chat entry of the `users` dict is a `Session` (task list,
  pointer, reminder handle); the machine state `St` is the session of one
  fixed chat together with a fresh-id counter standing for `uuid.uuid4()`.
* An `asyncio` timer handle is a `Timer` whose status is `live`,
  `cancelled` (after `.cancel()`), or `finished` (the `remind_loop`
  coroutine returned or died).  `Task.cancel()` on a handle that is no
  longer live is a no-op, as in `asyncio`.
* Events are processed atomically (the program is single-threaded
  cooperative `asyncio` code); every handler returns the successor state,
  the list of timer operations it performed (`Op`), and the messages it
  sent (`Msg`).  A Python exception is an `Except.error`; FastAPI then
  answers the request with an error status instead of `{"ok": true}` and
  the session state is left as it was at the raise point (all raise
  points in the source precede any state mutation).
-/

namespace Wigglebot

/-- ASCII whitespace recognised by Python `str.strip` (the characters that
actually occur in this program's inputs). -/
def isWS (c : Char) : Bool :=
  c == ' ' || c == '\t' || c == '\n' || c == '\r'

/-- Drop leading whitespace characters. -/
def dropWS : List Char → List Char
  | [] => []
  | c :: cs => if isWS c then dropWS cs else c :: cs

/-- Characters of `str.strip`: whitespace removed from both ends. -/
def stripChars (cs : List Char) : List Char :=
  dropWS ((dropWS cs.reverse).reverse)

/-- Python `str.strip()`. -/
def stripStr (s : String) : String :=
  String.mk (stripChars s.data)

/-- Python `str.splitlines()`, modelled as splitting at `'\n'`. -/
def splitNL : List Char → List (List Char)
  | [] => [[]]
  | c :: cs =>
    if c = '\n' then [] :: splitNL cs
    else
      match splitNL cs with
      | [] => [[c]]
      | l :: ls => (c :: l) :: ls

/-- Split a character list at the first occurrence of `sep`
(`str.split(sep, 1)`); `none` when `sep` does not occur, in which case the
Python two-variable unpacking raises `ValueError`. -/
def splitTwo (sep : Char) : List Char → Option (List Char × List Char)
  | [] => none
  | c :: cs =>
    if c = sep then some ([], cs)
    else
      match splitTwo sep cs with
      | none => none
      | some (a, b) => some (c :: a, b)

/-- `data.split(":", 1)` followed by the two-variable unpacking
`action, tid = ...` of the webhook handler. -/
def splitColon1 (s : String) : Option (String × String) :=
  match splitTwo ':' s.data with
  | none => none
  | some (a, b) => some (String.mk a, String.mk b)

/-- Python `str.lower()` (ASCII). -/
def lowerStr (s : String) : String :=
  String.mk (s.data.map Char.toLower)

/-- `is_morning_input`: `"\n" in txt`. -/
def is_morning_input (s : String) : Bool :=
  s.data.any (fun c => c == '\n')

/-- The line preprocessing of `add_tasks_from_morning`:
`[l.strip() for l in raw.splitlines() if l.strip()]`. -/
def buildLines (raw : String) : List String :=
  (((splitNL raw.data).map stripChars).filter
      (fun cs => !cs.isEmpty)).map String.mk

/-- Priority tier of a task (`self.prio`): `top`, `mid` or `extra`. -/
inductive Prio
  | top
  | mid
  | extra
deriving DecidableEq

/-- A task: opaque unique id (`uuid.uuid4()`), its text, its tier, and the
mutable done flag. -/
structure Task where
  id : String
  text : String
  prio : Prio
  done : Bool
deriving DecidableEq

/-- Status of an `asyncio` task handle used as a reminder timer. -/
inductive TimerStatus
  | live
  | cancelled
  | finished
deriving DecidableEq

/-- A reminder-timer handle: the task id it was armed for, and whether the
underlying coroutine is still running, was cancelled, or has returned. -/
structure Timer where
  taskId : String
  status : TimerStatus
deriving DecidableEq

/-- `asyncio.Task.cancel()`: cancels a live task; a no-op on a handle that
is already cancelled or already finished, and it never raises. -/
def cancelTask : TimerStatus → TimerStatus
  | TimerStatus.live => TimerStatus.cancelled
  | s => s

/-- One entry of the `users` dict:
`{"tasks": [...], "pointer": int, "reminder": handle-or-None}`. -/
structure Session where
  tasks : List Task
  pointer : Nat
  reminder : Option Timer
deriving DecidableEq

/-- Machine state for one chat: `users.get(chat_id)` plus the fresh-id
source modelling `uuid.uuid4()`. -/
structure St where
  session : Option Session
  nextId : Nat
deriving DecidableEq

/-- Fresh task id number `n` (uuid4 is modelled by an injective encoding
of the fresh counter). -/
def freshId (n : Nat) : String :=
  String.mk (List.replicate n 'i')

/-- Timer operations performed by the handlers, recorded for the
arm/cancel instrumentation: arming a new `remind_loop`, a `.cancel()`
call (tagged with whether the handle was live), and a self-termination of
the loop (`return` or a propagated exception). -/
inductive Op
  | arm (taskId : String)
  | cancelCall (wasLive : Bool)
  | finish
deriving DecidableEq

/-- Outbound messages (the literal texts are irrelevant to the claims, so
they are represented symbolically; `gpt*` messages carry the subject text
and, when `build_keyboard` is attached, the task id of the buttons). -/
inductive Msg
  | answerCb
  | welcome
  | taskDoneBanner
  | dayComplete
  | fallback
  | gptAck
  | gptCoach (taskText : String) (kbTaskId : String)
  | gptStuck (taskText : String) (kbTaskId : String)
  | gptRemind (taskText : String) (kbTaskId : String)
deriving DecidableEq

/-- Python exceptions that can escape the webhook handler. -/
inductive Err
  | stopIteration
  | keyError
  | valueError
deriving DecidableEq

/-- Classified inbound events: a callback-button update (with its raw
`data` payload), a message update with text, an update with neither, and
an expiry of the reminder interval (with a flag saying whether the `gpt`
call of that firing raises). -/
inductive Event
  | callback (data : String)
  | message (raw : String)
  | emptyUpdate
  | remindFire (gptFails : Bool)
deriving DecidableEq

/-- The `while` loop of `next_task`: advance `p` past tasks that are
done.  Fuelled structural recursion; fuel `tasks.length` always
suffices. -/
def advanceAux (tasks : List Task) : Nat → Nat → Nat
  | 0, p => p
  | fuel + 1, p =>
    if h : p < tasks.length then
      if (tasks.get ⟨p, h⟩).done then advanceAux tasks fuel (p + 1) else p
    else p

/-- The pointer value after `next_task`'s while loop. -/
def advancePtr (tasks : List Task) (p : Nat) : Nat :=
  advanceAux tasks tasks.length p

/-- The value returned by `next_task`: the task at the advanced pointer,
or `none` when the pointer reached the end of the queue. -/
def activeTask (u : Session) : Option Task :=
  u.tasks.get? (advancePtr u.tasks u.pointer)

/-- `get_task`: `next(t for t in users[chat_id]["tasks"] if t.id == tid)`;
`none` models the `StopIteration` raised when no task matches. -/
def get_task (u : Session) (tid : String) : Option Task :=
  u.tasks.find? (fun t => t.id == tid)

/-- `t.done = True` on the first task whose id matches (the object
returned by `get_task`). -/
def setDoneFirst : List Task → String → List Task
  | [], _ => []
  | x :: rest, tid =>
    if x.id == tid then { x with done := true } :: rest
    else x :: setDoneFirst rest tid

/-- The tier tagging of `add_tasks_from_morning`: first line `top`, next
up to three `mid`, the rest `extra`. -/
def tierTag (lines : List String) : List (String × Prio) :=
  (lines.take 1).map (fun l => (l, Prio.top)) ++
  ((lines.drop 1).take 3).map (fun l => (l, Prio.mid)) ++
  (lines.drop 4).map (fun l => (l, Prio.extra))

/-- The three append loops of `add_tasks_from_morning`, each constructing
`Task(l, prio)` with a fresh uuid. -/
def mkTasks (nid : Nat) : List (String × Prio) → List Task
  | [] => []
  | (txt, p) :: rest =>
    { id := freshId nid, text := txt, prio := p, done := false } ::
      mkTasks (nid + 1) rest

/-- `add_tasks_from_morning(chat_id, raw)`: clears the queue, resets the
pointer, cancels the stored reminder handle if there is one, then appends
the new tasks.  Returns the new session, the advanced id counter and the
timer operations performed. -/
def add_tasks_from_morning (u : Session) (nid : Nat) (raw : String) :
    Session × Nat × List Op :=
  let tagged := tierTag (buildLines raw)
  let cleanup :
      Option Timer × List Op :=
    match u.reminder with
    | some tm =>
      (some { tm with status := cancelTask tm.status },
       [Op.cancelCall (decide (tm.status = TimerStatus.live))])
    | none => (none, [])
  ({ tasks := mkTasks nid tagged, pointer := 0, reminder := cleanup.1 },
   nid + tagged.length, cleanup.2)

/-- `mark_done(chat_id, tid)`: raises `KeyError` when the chat has no
record, `StopIteration` when the id is unknown; otherwise marks the task
done and cancels the stored reminder unless it is already cancelled. -/
def mark_done (st : St) (tid : String) : Except Err (St × List Op) :=
  match st.session with
  | none => Except.error Err.keyError
  | some u =>
    match get_task u tid with
    | none => Except.error Err.stopIteration
    | some _ =>
      let ts := setDoneFirst u.tasks tid
      match u.reminder with
      | some tm =>
        if tm.status = TimerStatus.cancelled then
          Except.ok ({ st with session := some { u with tasks := ts } }, [])
        else
          let tm1 : Timer := { tm with status := cancelTask tm.status }
          let u2 : Session := { u with tasks := ts, reminder := some tm1 }
          Except.ok ({ st with session := some u2 },
            [Op.cancelCall (decide (tm.status = TimerStatus.live))])
      | none => Except.ok ({ st with session := some { u with tasks := ts } }, [])

/-- `start_focus(chat_id)`: runs `next_task` (advancing the stored
pointer); when no task remains it sends the completion celebration,
otherwise it requests coach text, sends it with the Done/Stuck keyboard
and arms a fresh `remind_loop` for the task, overwriting the stored
handle. -/
def start_focus (st : St) : St × List Op × List Msg :=
  match st.session with
  | none => (st, [], [Msg.dayComplete])
  | some u =>
    let p := advancePtr u.tasks u.pointer
    match u.tasks.get? p with
    | none => ({ st with session := some { u with pointer := p } }, [], [Msg.dayComplete])
    | some task =>
      let tm : Timer := { taskId := task.id, status := TimerStatus.live }
      let u2 : Session := { u with pointer := p, reminder := some tm }
      ({ st with session := some u2 },
       [Op.arm task.id],
       [Msg.gptCoach task.text task.id])

/-- One expiry of the `remind_loop` interval inside the machine: only a
live handle has a running loop; the loop re-reads the session, looks the
task up by id, returns (finishing the handle) when the task is gone or
done, dies (also finishing the handle) when the `gpt` call raises, and
otherwise sends a nudge and keeps looping. -/
def fireEvent (st : St) (gptFails : Bool) : St × List Op × List Msg :=
  match st.session with
  | none => (st, [], [])
  | some u =>
    match u.reminder with
    | none => (st, [], [])
    | some tm =>
      if tm.status = TimerStatus.live then
        let tm1 : Timer := { tm with status := TimerStatus.finished }
        let u1 : Session := { u with reminder := some tm1 }
        let finished : St := { st with session := some u1 }
        match get_task u tm.taskId with
        | none => (finished, [Op.finish], [])
        | some t =>
          if t.done then (finished, [Op.finish], [])
          else if gptFails then (finished, [Op.finish], [])
          else (st, [], [Msg.gptRemind t.text t.id])
      else (st, [], [])

/-- `users.setdefault(chat_id, {"tasks": [], "pointer": 0,
"reminder": None})`. -/
def ensureSession (st : St) : St :=
  match st.session with
  | some _ => st
  | none =>
    { st with session := some { tasks := [], pointer := 0, reminder := none } }

/-- The body of `telegram_webhook` (plus the reminder expiry event).
`Except.ok` carries the state, timer operations and sent messages of a
request that runs to completion and answers `{"ok": true}`;
`Except.error` is an exception escaping the handler. -/
def handle (st : St) (e : Event) : Except Err (St × List Op × List Msg) :=
  match e with
  | Event.emptyUpdate => Except.ok (st, [], [])
  | Event.remindFire f => Except.ok (fireEvent st f)
  | Event.callback data =>
    match splitColon1 data with
    | none => Except.error Err.valueError
    | some (action, tid) =>
      if action = "done" then
        match mark_done st tid with
        | Except.error err => Except.error err
        | Except.ok (st1, ops1) =>
          let r := start_focus st1
          Except.ok (r.1, ops1 ++ r.2.1,
            Msg.answerCb :: Msg.taskDoneBanner :: r.2.2)
      else if action = "stuck" then
        match st.session with
        | none => Except.error Err.keyError
        | some u =>
          match get_task u tid with
          | none => Except.error Err.stopIteration
          | some t =>
            Except.ok (st, [], [Msg.answerCb, Msg.gptStuck t.text t.id])
      else Except.ok (st, [], [Msg.answerCb])
  | Event.message raw =>
    let text := stripStr raw
    let st1 := ensureSession st
    if lowerStr text = "/start" then
      Except.ok (st1, [], [Msg.welcome])
    else if is_morning_input text then
      match st1.session with
      | none => Except.ok (st1, [], [])
      | some u =>
        let a := add_tasks_from_morning u st1.nextId text
        let r := start_focus { session := some a.1, nextId := a.2.1 }
        Except.ok (r.1, a.2.2 ++ r.2.1, Msg.gptAck :: r.2.2)
    else
      Except.ok (st1, [], [Msg.fallback])

/-- One processed event: an exception leaves the state unchanged (every
raise point in the source precedes any state mutation) and FastAPI
answers the request with an error. -/
def step (st : St) (e : Event) : St × List Op × List Msg :=
  match handle st e with
  | Except.ok r => r
  | Except.error _ => (st, [], [])

/-- A run of the controller over a list of events, collecting the timer
operations. -/
def run (st : St) : List Event → St × List Op
  | [] => (st, [])
  | e :: es =>
    let r := step st e
    let rest := run r.1 es
    (rest.1, r.2.1 ++ rest.2)

/-- The initial state of a chat: no session record yet. -/
def init : St := { session := none, nextId := 0 }

/-- Timer-op predicates for the arm/cancel instrumentation. -/
def isArm : Op → Bool
  | Op.arm _ => true
  | _ => false

def isCancel : Op → Bool
  | Op.cancelCall _ => true
  | _ => false

/-- Operations that end the life of a live timer: cancelling a live
handle, or the loop terminating by itself. -/
def isLiveKill : Op → Bool
  | Op.cancelCall true => true
  | Op.finish => true
  | _ => false

def armCount (ops : List Op) : Nat := ops.countP isArm
def cancelCount (ops : List Op) : Nat := ops.countP isCancel
def liveKills (ops : List Op) : Nat := ops.countP isLiveKill

/-- Status of the stored reminder handle of the state, if any. -/
def remStatus (st : St) : Option TimerStatus :=
  match st.session with
  | some u => u.reminder.map Timer.status
  | none => none

/-- 1 when a live reminder timer is outstanding. -/
def liveInd (st : St) : Nat :=
  if remStatus st = some TimerStatus.live then 1 else 0

/-- 1 when the stored handle is live or self-finished (a handle on which
`mark_done` / `add_tasks_from_morning` would still call `.cancel()`
before the next arm, or that is still counted by the arm side of the
instrumentation). -/
def afInd (st : St) : Nat :=
  match remStatus st with
  | some TimerStatus.live => 1
  | some TimerStatus.finished => 1
  | _ => 0

/-- Stored pointer of the chat (0 when no session exists yet). -/
def ptrOf (st : St) : Nat :=
  match st.session with
  | some u => u.pointer
  | none => 0

/-- Events that are button signals or timer expiries (no queue
rebuild). -/
def controlEvent : Event → Prop
  | Event.callback _ => True
  | Event.remindFire _ => True
  | Event.emptyUpdate => True
  | Event.message _ => False

/-- The re-check condition of `remind_loop`: the session is gone, the
task id no longer resolves, or the task is done. -/
def taskStopped (u? : Option Session) (tid : String) : Bool :=
  match u? with
  | none => true
  | some u =>
    match get_task u tid with
    | none => true
    | some t => t.done

/-- Outcome of one firing of the v3 `remind_loop`. -/
inductive FireRes
  | nudge (taskText : String) (kbTaskId : String)
  | stop
  | crash
deriving DecidableEq

/-- One firing of `remind_loop` of `main_v3.py` after its sleep: re-read
the session, look up the task; return when it is gone or done; the body
has no exception handling, so a raising `gpt`/send call crashes the
loop. -/
def fireOnce (u? : Option Session) (tid : String) (gptFails : Bool) :
    FireRes :=
  match u? with
  | none => FireRes.stop
  | some u =>
    match get_task u tid with
    | none => FireRes.stop
    | some t =>
      if t.done then FireRes.stop
      else if gptFails then FireRes.crash
      else FireRes.nudge t.text t.id

/-- The v3 `remind_loop` run over the session snapshots seen at its
successive wakeups (each paired with whether the `gpt` call of that
firing raises).  The loop proceeds past a firing only when it nudged. -/
def remind_loop (tid : String) :
    List (Option Session × Bool) → List FireRes
  | [] => []
  | (u?, f) :: rest =>
    match fireOnce u? tid f with
    | FireRes.nudge s k => FireRes.nudge s k :: remind_loop tid rest
    | r => [r]

/-- A task record of `main_v2.py`: `{"chat_id": ..., "text": ..., "done":
...}`. -/
structure V2Task where
  chat_id : Int
  text : String
  done : Bool
deriving DecidableEq

/-- Outcome of one firing of the v2 `reminder_loop`. -/
inductive V2Res
  | nudge (text : String)
  | errorLogged
  | stop
deriving DecidableEq

/-- The `reminder_loop` of `main_v2.py` run over the task snapshots seen
at its wakeups (paired with whether the send/`gpt` of that firing
raises): it breaks when the task is gone or done, and its `try/except`
catches a failure and continues the loop. -/
def reminder_loop : List (Option V2Task × Bool) → List V2Res
  | [] => []
  | (t?, fails) :: rest =>
    match t? with
    | none => [V2Res.stop]
    | some t =>
      if t.done then [V2Res.stop]
      else
        (if fails then V2Res.errorLogged else V2Res.nudge t.text) ::
          reminder_loop rest

/-- Whether the webhook answered the request with its `{"ok": true}`
payload (`Except.ok`) or an exception escaped (`Except.error`, surfaced
by FastAPI as an error response). -/
def okResponse : Except Err (St × List Op × List Msg) → Bool
  | Except.ok _ => true
  | Except.error _ => false

/-! ### C10: cancelling a dead timer handle -/

/-- C10: cancelling a reminder-timer handle that is already cancelled or
already finished is idempotent: the handle's status is unchanged, a second
cancel changes nothing either, and a non-live handle has no running loop,
so no firing happens before or after the cancel (a reminder expiry is a
no-op on the whole state). -/
theorem cancel_dead_handle_noop (s : TimerStatus) (h : s ≠ TimerStatus.live) :
    cancelTask s = s ∧
    cancelTask (cancelTask s) = cancelTask s ∧
    (∀ (st : St) (u : Session) (tid : String) (f : Bool),
      st.session = some u →
      u.reminder = some { taskId := tid, status := s } →
      fireEvent st f = (st, [], [])) := by
  refine ⟨?_, ?_, ?_⟩
  · cases s with
    | live => exact absurd rfl h
    | cancelled => rfl
    | finished => rfl
  · cases s <;> rfl
  · intro st u tid f hs hr
    cases s with
    | live => exact absurd rfl h
    | cancelled => simp [fireEvent, hs, hr]
    | finished => simp [fireEvent, hs, hr]

def c10sess : Session :=
  { tasks := [], pointer := 0,
    reminder := some { taskId := "z", status := TimerStatus.cancelled } }

def c10st : St := { session := some c10sess, nextId := 0 }

/-- Witness for C10 at the already-cancelled status. -/
theorem cancel_dead_handle_noop_witness :
    cancelTask TimerStatus.cancelled = TimerStatus.cancelled ∧
    cancelTask (cancelTask TimerStatus.cancelled) = cancelTask TimerStatus.cancelled ∧
    fireEvent c10st false = (c10st, [], []) := by
  have h := cancel_dead_handle_noop TimerStatus.cancelled (by decide)
  exact ⟨h.1, h.2.1, h.2.2 c10st c10sess "z" false rfl rfl⟩

/-! ### C6: a failed nudge and the survival of the reminder loop -/

def c6sess : Session :=
  { tasks := [{ id := "7", text := "write report", prio := Prio.top, done := false }],
    pointer := 0,
    reminder := some { taskId := "7", status := TimerStatus.live } }

def c6v2task : V2Task := { chat_id := 1, text := "write report", done := false }

/-- C6: on a firing whose `gpt`/send raises, the v3 `remind_loop` (which
has no `try`/`except`) crashes and never reaches its next scheduled
interval — even though the task is alive and a later firing would have
succeeded — whereas the v2 `reminder_loop` (`main_v2.py`, with
`try`/`except`) logs the failure and nudges again at the next interval. -/
theorem remind_loop_dies_on_failed_nudge :
    remind_loop "7" [(some c6sess, true), (some c6sess, false)] = [FireRes.crash] ∧
    reminder_loop [(some c6v2task, true), (some c6v2task, false)] =
      [V2Res.errorLogged, V2Res.nudge "write report"] :=
  ⟨rfl, rfl⟩

/-! ### C5: the reminder loop re-checks and self-terminates -/

lemma fireOnce_of_stopped {u? : Option Session} {tid : String}
    (h : taskStopped u? tid = true) (f : Bool) :
    fireOnce u? tid f = FireRes.stop := by
  cases u? with
  | none => rfl
  | some u =>
    cases hg : get_task u tid with
    | none => simp [fireOnce, hg]
    | some t =>
      have hd : t.done = true := by simpa [taskStopped, hg] using h
      simp [fireOnce, hg, hd]

lemma fireOnce_of_open {u? : Option Session} {tid : String}
    (h : taskStopped u? tid = false) :
    ∃ s k, fireOnce u? tid false = FireRes.nudge s k := by
  cases u? with
  | none => simp [taskStopped] at h
  | some u =>
    cases hg : get_task u tid with
    | none => simp [taskStopped, hg] at h
    | some t =>
      have hd : t.done = false := by simpa [taskStopped, hg] using h
      exact ⟨t.text, t.id, by simp [fireOnce, hg, hd]⟩

/-- C5: over any sequence of session snapshots seen at its wakeups, if the
first k firings find the task alive (and their sends succeed) while at
firing k the task is gone from the session or done, then the v3
`remind_loop` emits exactly k nudges followed by a single silent
termination: no nudge at firing k, no error, and no firing after it. -/
theorem remind_loop_self_terminates (tid : String) :
    ∀ (snaps : List (Option Session × Bool)) (k : Nat) (hk : k < snaps.length),
      taskStopped (snaps.get ⟨k, hk⟩).1 tid = true →
      (∀ j : Fin snaps.length, (j : Nat) < k →
        taskStopped (snaps.get j).1 tid = false ∧ (snaps.get j).2 = false) →
      ∃ pre, remind_loop tid snaps = pre ++ [FireRes.stop] ∧ pre.length = k ∧
        ∀ r ∈ pre, ∃ s i, r = FireRes.nudge s i := by
  intro snaps
  induction snaps with
  | nil => intro k hk; exact absurd hk (by simp)
  | cons p rest ih =>
    obtain ⟨u?, fl⟩ := p
    intro k hk hstop hrun
    cases k with
    | zero =>
      refine ⟨[], ?_, rfl, by simp⟩
      have hf : fireOnce u? tid fl = FireRes.stop := fireOnce_of_stopped hstop fl
      simp [remind_loop, hf]
    | succ k =>
      have h0 := hrun ⟨0, by simp⟩ (Nat.succ_pos k)
      obtain ⟨s, i, hf⟩ := fireOnce_of_open h0.1
      have hflag : fl = false := h0.2
      have hk2 : k < rest.length := Nat.lt_of_succ_lt_succ hk
      have hstop2 : taskStopped (rest.get ⟨k, hk2⟩).1 tid = true := hstop
      have hrun2 : ∀ j : Fin rest.length, (j : Nat) < k →
          taskStopped (rest.get j).1 tid = false ∧ (rest.get j).2 = false := by
        intro j hj
        exact hrun ⟨j + 1, Nat.succ_lt_succ j.isLt⟩ (Nat.succ_lt_succ hj)
      obtain ⟨pre, hpre, hlen, hnud⟩ := ih k hk2 hstop2 hrun2
      subst hflag
      have hf2 : fireOnce u? tid false = FireRes.nudge s i := hf
      refine ⟨FireRes.nudge s i :: pre, ?_, by simp [hlen], ?_⟩
      · simp [remind_loop, hf2, hpre]
      · intro r hr
        rcases List.mem_cons.mp hr with h | h
        · exact ⟨s, i, h⟩
        · exact hnud r h

def c5open : Session :=
  { tasks := [{ id := "5", text := "draft slides", prio := Prio.top, done := false }],
    pointer := 0,
    reminder := some { taskId := "5", status := TimerStatus.live } }

def c5done : Session :=
  { tasks := [{ id := "5", text := "draft slides", prio := Prio.top, done := true }],
    pointer := 0,
    reminder := some { taskId := "5", status := TimerStatus.live } }

/-- Witness for C5: one successful firing, then the task is marked done;
the second firing terminates silently and the third scheduled wakeup
never happens. -/
theorem remind_loop_self_terminates_witness :
    remind_loop "5"
        [(some c5open, false), (some c5done, false), (some c5done, false)] =
      [FireRes.nudge "draft slides" "5", FireRes.stop] ∧
    ∃ pre,
      remind_loop "5"
          [(some c5open, false), (some c5done, false), (some c5done, false)] =
        pre ++ [FireRes.stop] ∧
      pre.length = 1 ∧ ∀ r ∈ pre, ∃ s i, r = FireRes.nudge s i :=
  ⟨rfl,
   remind_loop_self_terminates "5"
     [(some c5open, false), (some c5done, false), (some c5done, false)]
     1 (by decide) (by decide) (by decide)⟩

/-! ### C8: empty goal submission -/

def c8sess : Session :=
  { tasks := [{ id := "9", text := "old goal", prio := Prio.top, done := false }],
    pointer := 2,
    reminder := some { taskId := "9", status := TimerStatus.live } }

/-- C8 counterexample: on a submission with zero non-empty lines the
Queue Builder part does return an empty sequence, but
`add_tasks_from_morning` does not skip queue replacement: it clears the
existing task, resets the pointer and cancels the live timer instead of
leaving them unchanged. -/
theorem empty_submission_clears_queue_cx :
    buildLines " \n " = [] ∧
    (add_tasks_from_morning c8sess 5 " \n ").1.tasks = [] ∧
    c8sess.tasks ≠ [] ∧
    (add_tasks_from_morning c8sess 5 " \n ").1.pointer = 0 ∧
    c8sess.pointer = 2 ∧
    (add_tasks_from_morning c8sess 5 " \n ").1.reminder =
      some { taskId := "9", status := TimerStatus.cancelled } ∧
    c8sess.reminder = some { taskId := "9", status := TimerStatus.live } := by
  refine ⟨rfl, rfl, by decide, rfl, rfl, rfl, rfl⟩

/-- C8 amended: when the submission yields zero non-empty lines the
builder produces the empty queue and the controller still replaces
unconditionally: the prior tasks are cleared, the pointer is reset to 0
and any stored reminder handle is cancelled; no tasks are created (the id
counter does not move) and no "nothing to schedule" report exists. -/
theorem empty_submission_replaces_unconditionally
    (u : Session) (nid : Nat) (raw : String) (h : buildLines raw = []) :
    (add_tasks_from_morning u nid raw).1.tasks = [] ∧
    (add_tasks_from_morning u nid raw).1.pointer = 0 ∧
    (add_tasks_from_morning u nid raw).1.reminder =
      u.reminder.map (fun tm => { tm with status := cancelTask tm.status }) ∧
    (add_tasks_from_morning u nid raw).2.1 = nid := by
  cases hr : u.reminder with
  | none => simp [add_tasks_from_morning, h, hr, tierTag, mkTasks]
  | some tm => simp [add_tasks_from_morning, h, hr, tierTag, mkTasks]

/-- Witness for C8's amended statement at a concrete empty submission. -/
theorem empty_submission_replaces_unconditionally_witness :
    (add_tasks_from_morning c8sess 5 " \n ").1.tasks = [] ∧
    (add_tasks_from_morning c8sess 5 " \n ").1.pointer = 0 ∧
    (add_tasks_from_morning c8sess 5 " \n ").1.reminder =
      c8sess.reminder.map (fun tm => { tm with status := cancelTask tm.status }) ∧
    (add_tasks_from_morning c8sess 5 " \n ").2.1 = 5 :=
  empty_submission_replaces_unconditionally c8sess 5 " \n " rfl

/-! ### C7: done/stuck signals with an unknown task id -/

def c7sess : Session :=
  { tasks := [{ id := "0", text := "write intro", prio := Prio.top, done := false }],
    pointer := 0,
    reminder := some { taskId := "0", status := TimerStatus.live } }

def c7st : St := { session := some c7sess, nextId := 1 }

/-- C7 counterexample: a done or stuck callback whose task id is not in
the session makes `get_task` raise `StopIteration` out of the webhook
handler — no benign "no such task" message is sent, contradicting the
claim that the handler never raises. -/
theorem unknown_task_raises_cx :
    handle c7st (Event.callback "done:zzz") = Except.error Err.stopIteration ∧
    handle c7st (Event.callback "stuck:zzz") = Except.error Err.stopIteration :=
  ⟨rfl, rfl⟩

/-- C7 amended: a done or stuck signal whose task id is not in the
session leaves the session state and timers untouched (every raise point
precedes any mutation), but instead of reporting a benign "no such task"
message it raises `StopIteration` (`get_task` is `next(...)` without a
default), which escapes the handler. -/
theorem unknown_task_raises (st : St) (u : Session) (data action tid : String)
    (hs : st.session = some u)
    (hp : splitColon1 data = some (action, tid))
    (ha : action = "done" ∨ action = "stuck")
    (hf : get_task u tid = none) :
    handle st (Event.callback data) = Except.error Err.stopIteration ∧
    step st (Event.callback data) = (st, [], []) := by
  have hh : handle st (Event.callback data) = Except.error Err.stopIteration := by
    rcases ha with ha | ha <;> subst ha
    · simp [handle, hp, mark_done, hs, hf]
    · simp [handle, hp, hs, hf]
  exact ⟨hh, by simp [step, hh]⟩

/-- Witness for C7's amended statement. -/
theorem unknown_task_raises_witness :
    handle c7st (Event.callback "done:zzz") = Except.error Err.stopIteration ∧
    step c7st (Event.callback "done:zzz") = (c7st, [], []) :=
  unknown_task_raises c7st c7sess "done:zzz" "done" "zzz" rfl rfl (Or.inl rfl) rfl

/-! ### C9: the constant ok acknowledgement -/

/-- C9 counterexample: a callback whose payload has no colon
(`ValueError` from the two-variable unpacking) and a done callback with a
stale task id (`StopIteration`) both escape the handler, so the webhook
does not answer those requests with the `{"ok": true}` payload. -/
theorem webhook_not_always_ok_cx :
    okResponse (handle c7st (Event.callback "garbage")) = false ∧
    okResponse (handle c7st (Event.callback "done:zzz")) = false :=
  ⟨rfl, rfl⟩

/-- C9 amended: every update that runs to completion is answered with the
constant `{"ok": true}` payload — updates with no text and no callback,
every message update, reminder expiries, and callbacks whose action is
neither done nor stuck — but a callback payload without a colon raises
`ValueError`, and a done/stuck callback for a chat with no session raises
`KeyError` (as does an unknown task id per the C7 theorem), and those
exceptions escape the handler instead of being ignored. -/
theorem webhook_ok_characterization :
    (∀ st, handle st Event.emptyUpdate = Except.ok (st, [], [])) ∧
    (∀ st raw, okResponse (handle st (Event.message raw)) = true) ∧
    (∀ st f, okResponse (handle st (Event.remindFire f)) = true) ∧
    (∀ st data, splitColon1 data = none →
      handle st (Event.callback data) = Except.error Err.valueError) ∧
    (∀ st data action tid, splitColon1 data = some (action, tid) →
      action ≠ "done" → action ≠ "stuck" →
      handle st (Event.callback data) = Except.ok (st, [], [Msg.answerCb])) ∧
    (∀ st data action tid, splitColon1 data = some (action, tid) →
      (action = "done" ∨ action = "stuck") → st.session = none →
      handle st (Event.callback data) = Except.error Err.keyError) := by
  refine ⟨?_, ?_, ?_, ?_, ?_, ?_⟩
  · intro st; rfl
  · intro st raw
    unfold handle
    by_cases h1 : lowerStr (stripStr raw) = "/start"
    · simp [h1, okResponse]
    · by_cases h2 : is_morning_input (stripStr raw)
      · simp only [h1, h2, if_false, if_true]
        cases hs : (ensureSession st).session with
        | none => simp [okResponse]
        | some u => simp [okResponse]
      · simp [h1, h2, okResponse]
  · intro st f; rfl
  · intro st data hp
    simp [handle, hp]
  · intro st data action tid hp h1 h2
    simp [handle, hp, h1, h2]
  · intro st data action tid hp ha hs
    rcases ha with ha | ha <;> subst ha
    · simp [handle, hp, mark_done, hs]
    · simp [handle, hp, hs]

/-- Witness for C9's amended statement across its cases. -/
theorem webhook_ok_characterization_witness :
    handle init Event.emptyUpdate = Except.ok (init, [], []) ∧
    okResponse (handle init (Event.message "hello there")) = true ∧
    okResponse (handle init (Event.remindFire false)) = true ∧
    handle init (Event.callback "garbage") = Except.error Err.valueError ∧
    handle init (Event.callback "poke:0") = Except.ok (init, [], [Msg.answerCb]) ∧
    handle init (Event.callback "done:0") = Except.error Err.keyError :=
  ⟨webhook_ok_characterization.1 init,
   webhook_ok_characterization.2.1 init "hello there",
   webhook_ok_characterization.2.2.1 init false,
   webhook_ok_characterization.2.2.2.1 init "garbage" rfl,
   webhook_ok_characterization.2.2.2.2.1 init "poke:0" "poke" "0" rfl
     (by decide) (by decide),
   webhook_ok_characterization.2.2.2.2.2 init "done:0" "done" "0" rfl
     (Or.inl rfl) rfl⟩

/-! ### C3: the tiered queue built from a goal submission -/

lemma mkTasks_map_text (nid : Nat) (l : List (String × Prio)) :
    (mkTasks nid l).map Task.text = l.map Prod.fst := by
  induction l generalizing nid with
  | nil => rfl
  | cons x rest ih =>
    obtain ⟨txt, p⟩ := x
    simp [mkTasks, ih]

lemma mkTasks_filter_text (nid : Nat) (l : List (String × Prio)) (q : Prio) :
    ((mkTasks nid l).filter (fun t => t.prio == q)).map Task.text =
      (l.filter (fun pr => pr.2 == q)).map Prod.fst := by
  induction l generalizing nid with
  | nil => rfl
  | cons x rest ih =>
    obtain ⟨txt, p⟩ := x
    by_cases hq : p = q
    · subst hq
      simp [mkTasks, List.filter_cons, ih]
    · simp [mkTasks, List.filter_cons, hq, ih]

lemma mkTasks_countP (nid : Nat) (l : List (String × Prio)) (q : Prio) :
    (mkTasks nid l).countP (fun t => t.prio == q) =
      l.countP (fun pr => pr.2 == q) := by
  induction l generalizing nid with
  | nil => rfl
  | cons x rest ih =>
    obtain ⟨txt, p⟩ := x
    simp [mkTasks, List.countP_cons, ih]

lemma mkTasks_done (nid : Nat) (l : List (String × Prio)) :
    ∀ t ∈ mkTasks nid l, t.done = false := by
  induction l generalizing nid with
  | nil => intro t ht; exact absurd ht (by simp [mkTasks])
  | cons x rest ih =>
    obtain ⟨txt, p⟩ := x
    intro t ht
    rcases List.mem_cons.mp ht with h | h
    · rw [h]
    · exact ih (nid + 1) t h

lemma filter_tag_self (l : List String) (p : Prio) :
    (l.map (fun s => (s, p))).filter (fun pr => pr.2 == p) =
      l.map (fun s => (s, p)) := by
  induction l with
  | nil => rfl
  | cons x rest ih => simp [List.filter_cons, ih]

lemma filter_tag_other (l : List String) (p q : Prio) (h : p ≠ q) :
    (l.map (fun s => (s, p))).filter (fun pr => pr.2 == q) = [] := by
  induction l with
  | nil => rfl
  | cons x rest ih => simp [List.filter_cons, h, ih]

lemma map_fst_tag (l : List String) (p : Prio) :
    (l.map (fun s => (s, p))).map Prod.fst = l := by
  induction l with
  | nil => rfl
  | cons x rest ih => simp [ih]

lemma map_fst_tag_comp (l : List String) (p : Prio) :
    l.map (Prod.fst ∘ fun s => (s, p)) = l := by
  induction l with
  | nil => rfl
  | cons x rest ih => simp [ih]

lemma countP_tag_self (l : List String) (p : Prio) :
    (l.map (fun s => (s, p))).countP (fun pr => pr.2 == p) = l.length := by
  induction l with
  | nil => rfl
  | cons x rest ih => simp [List.countP_cons, ih]

lemma countP_tag_other (l : List String) (p q : Prio) (h : p ≠ q) :
    (l.map (fun s => (s, p))).countP (fun pr => pr.2 == q) = 0 := by
  induction l with
  | nil => rfl
  | cons x rest ih => simp [List.countP_cons, h, ih]

lemma tierTag_fst (lines : List String) :
    (tierTag lines).map Prod.fst = lines := by
  unfold tierTag
  rw [List.map_append, List.map_append, map_fst_tag, map_fst_tag, map_fst_tag]
  have h4 : List.drop 3 (List.drop 1 lines) = List.drop 4 lines := by
    simp [List.drop_drop]
  rw [← h4, List.append_assoc, List.take_append_drop, List.take_append_drop]

/-- C3: for a submission with at least one non-empty line, the queue that
`add_tasks_from_morning` installs lists exactly the stripped non-empty
lines in submission order; the tier-top tasks are exactly the first line,
the tier-mid tasks exactly the next up-to-three lines, the tier-extra
tasks exactly the remainder (each in original order); there is exactly
one top task and at most three mid tasks; every task starts not done; and
every queued line is non-empty. -/
theorem queue_builder_tiers (u : Session) (nid : Nat) (raw : String)
    (hne : buildLines raw ≠ []) :
    ((add_tasks_from_morning u nid raw).1.tasks.map Task.text = buildLines raw) ∧
    (((add_tasks_from_morning u nid raw).1.tasks.filter
        (fun t => t.prio == Prio.top)).map Task.text = (buildLines raw).take 1) ∧
    (((add_tasks_from_morning u nid raw).1.tasks.filter
        (fun t => t.prio == Prio.mid)).map Task.text =
      ((buildLines raw).drop 1).take 3) ∧
    (((add_tasks_from_morning u nid raw).1.tasks.filter
        (fun t => t.prio == Prio.extra)).map Task.text = (buildLines raw).drop 4) ∧
    ((add_tasks_from_morning u nid raw).1.tasks.countP
        (fun t => t.prio == Prio.top) = 1) ∧
    ((add_tasks_from_morning u nid raw).1.tasks.countP
        (fun t => t.prio == Prio.mid) ≤ 3) ∧
    (∀ t ∈ (add_tasks_from_morning u nid raw).1.tasks, t.done = false) ∧
    (∀ l ∈ buildLines raw, l.data ≠ []) := by
  have htasks : (add_tasks_from_morning u nid raw).1.tasks =
      mkTasks nid (tierTag (buildLines raw)) := by
    unfold add_tasks_from_morning
    cases u.reminder <;> rfl
  refine ⟨?_, ?_, ?_, ?_, ?_, ?_, ?_, ?_⟩
  · rw [htasks, mkTasks_map_text, tierTag_fst]
  · rw [htasks, mkTasks_filter_text]
    unfold tierTag
    rw [List.filter_append, List.filter_append]
    rw [filter_tag_self, filter_tag_other _ _ _ (by decide),
      filter_tag_other _ _ _ (by decide)]
    simp [map_fst_tag, map_fst_tag_comp]
  · rw [htasks, mkTasks_filter_text]
    unfold tierTag
    rw [List.filter_append, List.filter_append]
    rw [filter_tag_self, filter_tag_other _ _ _ (by decide),
      filter_tag_other _ _ _ (by decide)]
    simp [map_fst_tag, map_fst_tag_comp]
  · rw [htasks, mkTasks_filter_text]
    unfold tierTag
    rw [List.filter_append, List.filter_append]
    rw [filter_tag_self, filter_tag_other _ _ _ (by decide),
      filter_tag_other _ _ _ (by decide)]
    simp [map_fst_tag, map_fst_tag_comp]
  · rw [htasks, mkTasks_countP]
    unfold tierTag
    rw [List.countP_append, List.countP_append]
    rw [countP_tag_self, countP_tag_other _ _ _ (by decide),
      countP_tag_other _ _ _ (by decide)]
    cases hl : buildLines raw with
    | nil => exact absurd hl hne
    | cons x rest => simp
  · rw [htasks, mkTasks_countP]
    unfold tierTag
    rw [List.countP_append, List.countP_append]
    rw [countP_tag_self, countP_tag_other _ _ _ (by decide),
      countP_tag_other _ _ _ (by decide)]
    rw [List.length_take]
    omega
  · rw [htasks]
    exact mkTasks_done nid _
  · intro l hl
    unfold buildLines at hl
    rcases List.mem_map.mp hl with ⟨cs, hcs, hmk⟩
    have hne2 : cs.isEmpty = false := by
      have := (List.mem_filter.mp hcs).2
      simpa using this
    intro hd
    rw [← hmk] at hd
    have hcs0 : cs = [] := hd
    rw [hcs0] at hne2
    simp at hne2

def c3scenario : String :=
  "Write report\nCall Bob\nEmail team\nBackup files\nClean desk"

/-- Witness for C3 at the five-line scenario of the specification. -/
theorem queue_builder_tiers_witness :
    ((add_tasks_from_morning ⟨[], 0, none⟩ 0 c3scenario).1.tasks.map Task.text =
      buildLines c3scenario) ∧
    (((add_tasks_from_morning ⟨[], 0, none⟩ 0 c3scenario).1.tasks.filter
        (fun t => t.prio == Prio.top)).map Task.text = (buildLines c3scenario).take 1) ∧
    (((add_tasks_from_morning ⟨[], 0, none⟩ 0 c3scenario).1.tasks.filter
        (fun t => t.prio == Prio.mid)).map Task.text =
      ((buildLines c3scenario).drop 1).take 3) ∧
    (((add_tasks_from_morning ⟨[], 0, none⟩ 0 c3scenario).1.tasks.filter
        (fun t => t.prio == Prio.extra)).map Task.text = (buildLines c3scenario).drop 4) ∧
    ((add_tasks_from_morning ⟨[], 0, none⟩ 0 c3scenario).1.tasks.countP
        (fun t => t.prio == Prio.top) = 1) ∧
    ((add_tasks_from_morning ⟨[], 0, none⟩ 0 c3scenario).1.tasks.countP
        (fun t => t.prio == Prio.mid) ≤ 3) ∧
    (∀ t ∈ (add_tasks_from_morning ⟨[], 0, none⟩ 0 c3scenario).1.tasks, t.done = false) ∧
    (∀ l ∈ buildLines c3scenario, l.data ≠ []) :=
  queue_builder_tiers ⟨[], 0, none⟩ 0 c3scenario (by decide)

/-! ### C2: the Pointer Advancer -/

lemma advanceAux_le (t : List Task) : ∀ (f p : Nat), p ≤ advanceAux t f p := by
  intro f
  induction f with
  | zero => intro p; exact Nat.le_refl p
  | succ f ih =>
    intro p
    unfold advanceAux
    split
    · split
      · exact Nat.le_trans (Nat.le_succ p) (ih (p + 1))
      · exact Nat.le_refl p
    · exact Nat.le_refl p

lemma advanceAux_spec (t : List Task) :
    ∀ (f p : Nat), t.length ≤ f + p →
      (∀ i, p ≤ i → i < advanceAux t f p →
        ∀ a, t.get? i = some a → a.done = true) ∧
      (∀ a, t.get? (advanceAux t f p) = some a → a.done = false) := by
  intro f
  induction f with
  | zero =>
    intro p hp
    have h0 : advanceAux t 0 p = p := rfl
    constructor
    · intro i hpi hilt
      rw [h0] at hilt
      omega
    · intro a ha
      rw [h0] at ha
      have : t.length ≤ p := by omega
      rw [List.get?_eq_none.mpr this] at ha
      exact absurd ha (by simp)
  | succ f ih =>
    intro p hp
    have hdef : advanceAux t (f + 1) p =
        if h : p < t.length then
          if (t.get ⟨p, h⟩).done then advanceAux t f (p + 1) else p
        else p := rfl
    by_cases h : p < t.length
    · by_cases hd : (t.get ⟨p, h⟩).done = true
      · have hred : advanceAux t (f + 1) p = advanceAux t f (p + 1) := by
          rw [hdef, dif_pos h, if_pos hd]
        have hih := ih (p + 1) (by omega)
        constructor
        · intro i hpi hilt a ha
          rw [hred] at hilt
          rcases Nat.eq_or_lt_of_le hpi with he | hlt
          · subst he
            rw [List.get?_eq_get h] at ha
            have : a = t.get ⟨p, h⟩ := (Option.some.injEq _ _ ▸ ha).symm
            rw [this]
            exact hd
          · exact hih.1 i hlt hilt a ha
        · intro a ha
          rw [hred] at ha
          exact hih.2 a ha
      · have hred : advanceAux t (f + 1) p = p := by
          rw [hdef, dif_pos h, if_neg hd]
        constructor
        · intro i hpi hilt
          rw [hred] at hilt
          omega
        · intro a ha
          rw [hred, List.get?_eq_get h] at ha
          have : a = t.get ⟨p, h⟩ := (Option.some.injEq _ _ ▸ ha).symm
          rw [this]
          exact Bool.not_eq_true _ ▸ hd
    · have hred : advanceAux t (f + 1) p = p := by
        rw [hdef, dif_neg h]
      constructor
      · intro i hpi hilt
        rw [hred] at hilt
        omega
      · intro a ha
        rw [hred] at ha
        have hle : t.length ≤ p := by omega
        rw [List.get?_eq_none.mpr hle] at ha
        exact absurd ha (by simp)

lemma advancePtr_le (t : List Task) (p : Nat) : p ≤ advancePtr t p :=
  advanceAux_le t t.length p

lemma advancePtr_skipped (t : List Task) (p : Nat) :
    ∀ i, p ≤ i → i < advancePtr t p → ∀ a, t.get? i = some a → a.done = true :=
  (advanceAux_spec t t.length p (Nat.le_add_right _ _)).1

lemma advancePtr_result (t : List Task) (p : Nat) :
    ∀ a, t.get? (advancePtr t p) = some a → a.done = false :=
  (advanceAux_spec t t.length p (Nat.le_add_right _ _)).2

lemma mark_done_ptr {st : St} {tid : String} {st1 : St} {ops : List Op}
    (h : mark_done st tid = Except.ok (st1, ops)) : ptrOf st1 = ptrOf st := by
  cases hs : st.session with
  | none => simp [mark_done, hs] at h
  | some u =>
    cases hg : get_task u tid with
    | none => simp [mark_done, hs, hg] at h
    | some t0 =>
      cases hr : u.reminder with
      | none =>
        simp only [mark_done, hs, hg, hr, Except.ok.injEq, Prod.mk.injEq] at h
        rw [← h.1]
        simp [ptrOf, hs]
      | some tm =>
        by_cases hc : tm.status = TimerStatus.cancelled
        · simp only [mark_done, hs, hg, hr, hc, if_true, Except.ok.injEq,
            Prod.mk.injEq] at h
          rw [← h.1]
          simp [ptrOf, hs]
        · simp only [mark_done, hs, hg, hr, hc, if_false, Except.ok.injEq,
            Prod.mk.injEq] at h
          rw [← h.1]
          simp [ptrOf, hs]

lemma start_focus_ptr (st : St) : ptrOf st ≤ ptrOf (start_focus st).1 := by
  cases hs : st.session with
  | none => simp [start_focus, hs]
  | some u =>
    cases hg : u.tasks.get? (advancePtr u.tasks u.pointer) with
    | none =>
      simp only [start_focus, hs, hg, ptrOf]
      exact advancePtr_le u.tasks u.pointer
    | some task =>
      simp only [start_focus, hs, hg, ptrOf]
      exact advancePtr_le u.tasks u.pointer

lemma fireEvent_ptr (st : St) (f : Bool) : ptrOf (fireEvent st f).1 = ptrOf st := by
  cases hs : st.session with
  | none => simp [fireEvent, hs]
  | some u =>
    cases hr : u.reminder with
    | none => simp [fireEvent, hs, hr]
    | some tm =>
      by_cases hl : tm.status = TimerStatus.live
      · cases hg : get_task u tm.taskId with
        | none => simp [fireEvent, hs, hr, hl, hg, ptrOf]
        | some t =>
          by_cases hd : t.done = true
          · simp [fireEvent, hs, hr, hl, hg, hd, ptrOf]
          · cases f <;> simp [fireEvent, hs, hr, hl, hg, hd, ptrOf]
      · simp [fireEvent, hs, hr, hl]

lemma step_ptr_mono (st : St) (e : Event) (he : controlEvent e) :
    ptrOf st ≤ ptrOf (step st e).1 := by
  cases e with
  | message raw => exact absurd he (by simp [controlEvent])
  | emptyUpdate => exact Nat.le_refl _
  | remindFire f =>
    have h : step st (Event.remindFire f) = fireEvent st f := rfl
    rw [h, fireEvent_ptr]
  | callback data =>
    cases hp : splitColon1 data with
    | none => simp [step, handle, hp]
    | some pr =>
      obtain ⟨action, tid⟩ := pr
      by_cases h1 : action = "done"
      · subst h1
        cases hmd : mark_done st tid with
        | error err => simp [step, handle, hp, hmd]
        | ok r =>
          obtain ⟨st1, ops1⟩ := r
          have h2 := mark_done_ptr hmd
          have h3 := start_focus_ptr st1
          have h4 : (step st (Event.callback data)).1 = (start_focus st1).1 := by
            simp [step, handle, hp, hmd]
          rw [h4]
          omega
      · by_cases h2 : action = "stuck"
        · subst h2
          cases hs : st.session with
          | none => simp [step, handle, hp, h1, hs]
          | some u =>
            cases hg : get_task u tid with
            | none => simp [step, handle, hp, h1, hs, hg]
            | some t => simp [step, handle, hp, h1, hs, hg]
        · simp [step, handle, hp, h1, h2]

lemma run_ptr_mono (evs : List Event) :
    ∀ st : St, (∀ e ∈ evs, controlEvent e) → ptrOf st ≤ ptrOf (run st evs).1 := by
  induction evs with
  | nil => intro st h; exact Nat.le_refl _
  | cons e es ih =>
    intro st h
    have h1 := step_ptr_mono st e (h e (by simp))
    have h2 := ih (step st e).1 (fun x hx => h x (by simp [hx]))
    have h3 : (run st (e :: es)).1 = (run (step st e).1 es).1 := rfl
    rw [h3]
    omega

/-- C2: `next_task` returns the first not-done task at or after the
stored pointer (every index it skips holds a done task and the returned
task is never done), returns `none` exactly when the pointer reaches the
end past only done tasks, never moves the pointer backwards, and across
any sequence of done/stuck/reminder events the stored pointer is
monotonically non-decreasing, so a skipped index is never revisited. -/
theorem pointer_advancer_correct :
    (∀ u : Session,
      u.pointer ≤ advancePtr u.tasks u.pointer ∧
      (∀ i, u.pointer ≤ i → i < advancePtr u.tasks u.pointer →
        ∀ a, u.tasks.get? i = some a → a.done = true) ∧
      (∀ t, activeTask u = some t → t.done = false) ∧
      (activeTask u = none → u.tasks.length ≤ advancePtr u.tasks u.pointer) ∧
      (activeTask u = none → ∀ i, u.pointer ≤ i →
        ∀ a, u.tasks.get? i = some a → a.done = true)) ∧
    (∀ (st : St) (evs : List Event), (∀ e ∈ evs, controlEvent e) →
      ptrOf st ≤ ptrOf (run st evs).1) := by
  constructor
  · intro u
    refine ⟨advancePtr_le u.tasks u.pointer, advancePtr_skipped u.tasks u.pointer,
      ?_, ?_, ?_⟩
    · intro t ht
      exact advancePtr_result u.tasks u.pointer t ht
    · intro hn
      unfold activeTask at hn
      exact List.get?_eq_none.mp hn
    · intro hn i hpi a ha
      unfold activeTask at hn
      have hend := List.get?_eq_none.mp hn
      have hlt : i < u.tasks.length := by
        rcases List.get?_eq_some.mp ha with ⟨hl, _⟩
        exact hl
      exact advancePtr_skipped u.tasks u.pointer i hpi (by omega) a ha
  · intro st evs h
    exact run_ptr_mono evs st h

def c2sess : Session :=
  { tasks := [{ id := "a", text := "first", prio := Prio.top, done := true },
              { id := "b", text := "second", prio := Prio.mid, done := false }],
    pointer := 0, reminder := none }

/-- Witness for C2: with the first task done, the advancer skips index 0
(which holds a done task), the task it returns is not done, and a stuck
signal does not move the stored pointer backwards. -/
theorem pointer_advancer_correct_witness :
    advancePtr c2sess.tasks c2sess.pointer = 1 ∧
    c2sess.pointer ≤ advancePtr c2sess.tasks c2sess.pointer ∧
    ({ id := "a", text := "first", prio := Prio.top, done := true : Task }).done
      = true ∧
    ({ id := "b", text := "second", prio := Prio.mid, done := false : Task }).done
      = false ∧
    ptrOf { session := some c2sess, nextId := 0 } ≤
      ptrOf (run { session := some c2sess, nextId := 0 }
        [Event.callback "stuck:b"]).1 :=
  ⟨rfl,
   (pointer_advancer_correct.1 c2sess).1,
   (pointer_advancer_correct.1 c2sess).2.1 0 (by decide) (by decide)
     { id := "a", text := "first", prio := Prio.top, done := true } rfl,
   (pointer_advancer_correct.1 c2sess).2.2.1
     { id := "b", text := "second", prio := Prio.mid, done := false } rfl,
   pointer_advancer_correct.2 { session := some c2sess, nextId := 0 }
     [Event.callback "stuck:b"]
     (by intro e he; rw [List.mem_singleton.mp he]; trivial)⟩

/-! ### C4: handling a done signal for the active task -/

/-- C4: a done callback for the currently active task T — in one handling
step — marks T done, cancels T's live reminder timer, advances the
pointer, and then either (next not-done task t2 exists) requests coach
text for t2, sends it with the Done/Stuck keyboard and arms a fresh timer
for t2, or (queue exhausted) sends the completion celebration and arms no
timer. -/
theorem done_signal_rearms (st : St) (u : Session) (t : Task) (data : String)
    (hp : splitColon1 data = some ("done", t.id))
    (hs : st.session = some u)
    (hg : get_task u t.id = some t)
    (_active : activeTask u = some t)
    (hr : u.reminder = some { taskId := t.id, status := TimerStatus.live }) :
    handle st (Event.callback data) =
      (let u1 : Session :=
        { tasks := setDoneFirst u.tasks t.id, pointer := u.pointer,
          reminder := some { taskId := t.id, status := TimerStatus.cancelled } }
       let p := advancePtr u1.tasks u1.pointer
       match u1.tasks.get? p with
       | some t2 =>
         let tm2 : Timer := { taskId := t2.id, status := TimerStatus.live }
         let u2 : Session := { u1 with pointer := p, reminder := some tm2 }
         Except.ok ({ st with session := some u2 },
           [Op.cancelCall true, Op.arm t2.id],
           [Msg.answerCb, Msg.taskDoneBanner, Msg.gptCoach t2.text t2.id])
       | none =>
         let u2 : Session := { u1 with pointer := p }
         Except.ok ({ st with session := some u2 },
           [Op.cancelCall true],
           [Msg.answerCb, Msg.taskDoneBanner, Msg.dayComplete])) := by
  have hmd : mark_done st t.id = Except.ok
      ({ st with session := some { tasks := setDoneFirst u.tasks t.id, pointer := u.pointer, reminder := some { taskId := t.id, status := TimerStatus.cancelled } } },
       [Op.cancelCall true]) := by
    simp [mark_done, hs, hg, hr, cancelTask]
  simp only [handle, hp, hmd, start_focus]
  cases hget : (setDoneFirst u.tasks t.id).get?
      (advancePtr (setDoneFirst u.tasks t.id) u.pointer) with
  | none => simp [hget]
  | some t2 => simp [hget]

def c4task : Task := { id := "0", text := "write intro", prio := Prio.top, done := false }

def c4next : Task := { id := "1", text := "send email", prio := Prio.mid, done := false }

def c4sess : Session :=
  { tasks := [c4task, c4next], pointer := 0,
    reminder := some { taskId := "0", status := TimerStatus.live } }

def c4st : St := { session := some c4sess, nextId := 2 }

/-- Witness for C4: done for the active task "0" marks it done, cancels
its timer, advances the pointer to 1 and re-arms for task "1" with its
coach message, in the single handling step. -/
theorem done_signal_rearms_witness :
    handle c4st (Event.callback "done:0") =
      Except.ok
        ({ session := some { tasks := [{ id := "0", text := "write intro", prio := Prio.top, done := true }, c4next], pointer := 1, reminder := some { taskId := "1", status := TimerStatus.live } }, nextId := 2 },
         [Op.cancelCall true, Op.arm "1"],
         [Msg.answerCb, Msg.taskDoneBanner, Msg.gptCoach "send email" "1"]) :=
  done_signal_rearms c4st c4sess c4task "done:0" rfl rfl rfl rfl rfl

/-! ### C1: the at-most-one-timer invariant

Every handler step performs one of five timer-operation patterns; the
`ShapeOK` relation records the pattern together with the reminder-slot
status before and after the step, and the counting facts of C1 follow
from it by induction over runs. -/

/-- The timer-operation pattern of one handler step: no operation, a
loop self-termination, an arm on an empty-or-cancelled slot, a single
cancel call, or a cancel call followed by an arm. -/
def ShapeOK (st st' : St) (ops : List Op) : Prop :=
  (ops = [] ∧ remStatus st' = remStatus st) ∨
  (ops = [Op.finish] ∧ remStatus st = some TimerStatus.live ∧
    remStatus st' = some TimerStatus.finished) ∨
  (∃ tid, ops = [Op.arm tid] ∧
    (remStatus st = none ∨ remStatus st = some TimerStatus.cancelled) ∧
    remStatus st' = some TimerStatus.live) ∨
  (∃ s, ops = [Op.cancelCall (decide (s = TimerStatus.live))] ∧
    remStatus st = some s ∧ remStatus st' = some (cancelTask s)) ∨
  (∃ s tid, ops = [Op.cancelCall (decide (s = TimerStatus.live)), Op.arm tid] ∧
    remStatus st = some s ∧ remStatus st' = some TimerStatus.live)

/-- The cleanup phase (`mark_done`'s cancel, or the cancel of
`add_tasks_from_morning`) before `start_focus` possibly re-arms. -/
def CleanupShape (st st1 : St) (ops1 : List Op) : Prop :=
  (ops1 = [] ∧ remStatus st1 = remStatus st ∧
    (remStatus st = none ∨ remStatus st = some TimerStatus.cancelled)) ∨
  (∃ s, ops1 = [Op.cancelCall (decide (s = TimerStatus.live))] ∧
    remStatus st = some s ∧ remStatus st1 = some (cancelTask s))

lemma ensure_rem (st : St) : remStatus (ensureSession st) = remStatus st := by
  cases hs : st.session with
  | none => simp [ensureSession, hs, remStatus]
  | some u => simp [ensureSession, hs]

lemma shapeOK_transport {st st0 st' : St} {ops : List Op}
    (h : remStatus st = remStatus st0) (hs : ShapeOK st0 st' ops) :
    ShapeOK st st' ops := by
  unfold ShapeOK at hs ⊢
  rw [h]
  exact hs

lemma start_focus_shape (st1 : St) :
    ((start_focus st1).2.1 = [] ∧ remStatus (start_focus st1).1 = remStatus st1) ∨
    (∃ tid, (start_focus st1).2.1 = [Op.arm tid] ∧
      remStatus (start_focus st1).1 = some TimerStatus.live) := by
  cases hs : st1.session with
  | none => left; constructor <;> simp [start_focus, hs]
  | some u =>
    cases hg : u.tasks.get? (advancePtr u.tasks u.pointer) with
    | none =>
      left
      constructor
      · simp only [start_focus, hs, hg]
      · simp only [start_focus, hs, hg, remStatus]
    | some task =>
      right
      refine ⟨task.id, ?_, ?_⟩
      · simp only [start_focus, hs, hg]
      · simp only [start_focus, hs, hg, remStatus]
        rfl

lemma cleanup_focus_shape {st st1 : St} {ops1 : List Op}
    (hm : CleanupShape st st1 ops1) :
    ShapeOK st (start_focus st1).1 (ops1 ++ (start_focus st1).2.1) := by
  rcases start_focus_shape st1 with ⟨f1, f2⟩ | ⟨tid, f1, f2⟩ <;>
    rcases hm with ⟨m1, m2, m3⟩ | ⟨s, m1, m2, m3⟩
  · left
    exact ⟨by rw [m1, f1]; rfl, by rw [f2, m2]⟩
  · right; right; right; left
    exact ⟨s, by rw [m1, f1]; rfl, m2, by rw [f2, m3]⟩
  · right; right; left
    exact ⟨tid, by rw [m1, f1]; rfl, m3, f2⟩
  · right; right; right; right
    exact ⟨s, tid, by rw [m1, f1]; rfl, m2, f2⟩

lemma mark_done_cleanup {st : St} {tid : String} {st1 : St} {ops : List Op}
    (h : mark_done st tid = Except.ok (st1, ops)) :
    CleanupShape st st1 ops := by
  cases hs : st.session with
  | none => simp [mark_done, hs] at h
  | some u =>
    cases hg : get_task u tid with
    | none => simp [mark_done, hs, hg] at h
    | some t0 =>
      cases hr : u.reminder with
      | none =>
        simp only [mark_done, hs, hg, hr, Except.ok.injEq, Prod.mk.injEq] at h
        left
        refine ⟨h.2.symm, ?_, Or.inl (by simp [remStatus, hs, hr])⟩
        rw [← h.1]
        simp [remStatus, hs, hr]
      | some tm =>
        by_cases hc : tm.status = TimerStatus.cancelled
        · simp only [mark_done, hs, hg, hr, hc, if_true, Except.ok.injEq,
            Prod.mk.injEq] at h
          left
          refine ⟨h.2.symm, ?_, Or.inr (by simp [remStatus, hs, hr, hc])⟩
          rw [← h.1]
          simp [remStatus, hs, hr, hc]
        · simp only [mark_done, hs, hg, hr, hc, if_false, Except.ok.injEq,
            Prod.mk.injEq] at h
          right
          refine ⟨tm.status, h.2.symm, by simp [remStatus, hs, hr], ?_⟩
          rw [← h.1]
          simp [remStatus, hs]

lemma add_tasks_cleanup (u : Session) (nid : Nat) (raw : String) (st1 : St)
    (hs : st1.session = some u) :
    CleanupShape st1
      { session := some (add_tasks_from_morning u nid raw).1,
        nextId := (add_tasks_from_morning u nid raw).2.1 }
      (add_tasks_from_morning u nid raw).2.2 := by
  cases hr : u.reminder with
  | none =>
    left
    refine ⟨by simp [add_tasks_from_morning, hr], ?_,
      Or.inl (by simp [remStatus, hs, hr])⟩
    simp [add_tasks_from_morning, hr, remStatus, hs]
  | some tm =>
    right
    refine ⟨tm.status, by simp [add_tasks_from_morning, hr], ?_, ?_⟩
    · simp [remStatus, hs, hr]
    · simp [add_tasks_from_morning, hr, remStatus]

lemma fireEvent_shape (st : St) (f : Bool) :
    ShapeOK st (fireEvent st f).1 (fireEvent st f).2.1 := by
  cases hs : st.session with
  | none => left; constructor <;> simp [fireEvent, hs]
  | some u =>
    cases hr : u.reminder with
    | none => left; constructor <;> simp [fireEvent, hs, hr]
    | some tm =>
      by_cases hl : tm.status = TimerStatus.live
      · cases hg : get_task u tm.taskId with
        | none =>
          right; left
          exact ⟨by simp [fireEvent, hs, hr, hl, hg],
            by simp [remStatus, hs, hr, hl],
            by simp [fireEvent, hs, hr, hl, hg, remStatus]⟩
        | some t =>
          by_cases hd : t.done = true
          · right; left
            exact ⟨by simp [fireEvent, hs, hr, hl, hg, hd],
              by simp [remStatus, hs, hr, hl],
              by simp [fireEvent, hs, hr, hl, hg, hd, remStatus]⟩
          · cases f with
            | true =>
              right; left
              exact ⟨by simp [fireEvent, hs, hr, hl, hg, hd],
                by simp [remStatus, hs, hr, hl],
                by simp [fireEvent, hs, hr, hl, hg, hd, remStatus]⟩
            | false =>
              left
              exact ⟨by simp [fireEvent, hs, hr, hl, hg, hd],
                by simp [fireEvent, hs, hr, hl, hg, hd]⟩
      · left
        exact ⟨by simp [fireEvent, hs, hr, hl], by simp [fireEvent, hs, hr, hl]⟩

lemma step_shape (st : St) (e : Event) :
    ShapeOK st (step st e).1 (step st e).2.1 := by
  cases e with
  | emptyUpdate => left; exact ⟨rfl, rfl⟩
  | remindFire f => exact fireEvent_shape st f
  | callback data =>
    cases hp : splitColon1 data with
    | none =>
      have h1 : (step st (Event.callback data)).1 = st := by
        simp [step, handle, hp]
      have h2 : (step st (Event.callback data)).2.1 = [] := by
        simp [step, handle, hp]
      rw [h1, h2]
      left
      exact ⟨rfl, rfl⟩
    | some pr =>
      obtain ⟨action, tid⟩ := pr
      by_cases hd : action = "done"
      · subst hd
        cases hmd : mark_done st tid with
        | error err =>
          have h1 : (step st (Event.callback data)).1 = st := by
            simp [step, handle, hp, hmd]
          have h2 : (step st (Event.callback data)).2.1 = [] := by
            simp [step, handle, hp, hmd]
          rw [h1, h2]
          left
          exact ⟨rfl, rfl⟩
        | ok r =>
          obtain ⟨st1, ops1⟩ := r
          have h1 : (step st (Event.callback data)).1 = (start_focus st1).1 := by
            simp [step, handle, hp, hmd]
          have h2 : (step st (Event.callback data)).2.1 =
              ops1 ++ (start_focus st1).2.1 := by
            simp [step, handle, hp, hmd]
          rw [h1, h2]
          exact cleanup_focus_shape (mark_done_cleanup hmd)
      · by_cases hstk : action = "stuck"
        · subst hstk
          cases hs : st.session with
          | none =>
            have h1 : (step st (Event.callback data)).1 = st := by
              simp [step, handle, hp, hd, hs]
            have h2 : (step st (Event.callback data)).2.1 = [] := by
              simp [step, handle, hp, hd, hs]
            rw [h1, h2]
            left
            exact ⟨rfl, rfl⟩
          | some u =>
            cases hg : get_task u tid with
            | none =>
              have h1 : (step st (Event.callback data)).1 = st := by
                simp [step, handle, hp, hd, hs, hg]
              have h2 : (step st (Event.callback data)).2.1 = [] := by
                simp [step, handle, hp, hd, hs, hg]
              rw [h1, h2]
              left
              exact ⟨rfl, rfl⟩
            | some t =>
              have h1 : (step st (Event.callback data)).1 = st := by
                simp [step, handle, hp, hd, hs, hg]
              have h2 : (step st (Event.callback data)).2.1 = [] := by
                simp [step, handle, hp, hd, hs, hg]
              rw [h1, h2]
              left
              exact ⟨rfl, rfl⟩
        · have h1 : (step st (Event.callback data)).1 = st := by
            simp [step, handle, hp, hd, hstk]
          have h2 : (step st (Event.callback data)).2.1 = [] := by
            simp [step, handle, hp, hd, hstk]
          rw [h1, h2]
          left
          exact ⟨rfl, rfl⟩
  | message raw =>
    by_cases hst : lowerStr (stripStr raw) = "/start"
    · have h1 : (step st (Event.message raw)).1 = ensureSession st := by
        simp [step, handle, hst]
      have h2 : (step st (Event.message raw)).2.1 = [] := by
        simp [step, handle, hst]
      rw [h1, h2]
      left
      exact ⟨rfl, ensure_rem st⟩
    · by_cases hm : is_morning_input (stripStr raw)
      · cases hs1 : (ensureSession st).session with
        | none =>
          have h1 : (step st (Event.message raw)).1 = ensureSession st := by
            simp [step, handle, hst, hm, hs1]
          have h2 : (step st (Event.message raw)).2.1 = [] := by
            simp [step, handle, hst, hm, hs1]
          rw [h1, h2]
          left
          exact ⟨rfl, ensure_rem st⟩
        | some u =>
          have h1 : (step st (Event.message raw)).1 =
              (start_focus { session := some (add_tasks_from_morning u (ensureSession st).nextId (stripStr raw)).1, nextId := (add_tasks_from_morning u (ensureSession st).nextId (stripStr raw)).2.1 }).1 := by
            simp [step, handle, hst, hm, hs1]
          have h2 : (step st (Event.message raw)).2.1 =
              (add_tasks_from_morning u (ensureSession st).nextId (stripStr raw)).2.2 ++
                (start_focus { session := some (add_tasks_from_morning u (ensureSession st).nextId (stripStr raw)).1, nextId := (add_tasks_from_morning u (ensureSession st).nextId (stripStr raw)).2.1 }).2.1 := by
            simp [step, handle, hst, hm, hs1]
          rw [h1, h2]
          exact shapeOK_transport (ensure_rem st).symm
            (cleanup_focus_shape
              (add_tasks_cleanup u (ensureSession st).nextId (stripStr raw)
                (ensureSession st) hs1))
      · have h1 : (step st (Event.message raw)).1 = ensureSession st := by
          simp [step, handle, hst, hm]
        have h2 : (step st (Event.message raw)).2.1 = [] := by
          simp [step, handle, hst, hm]
        rw [h1, h2]
        left
        exact ⟨rfl, ensure_rem st⟩

lemma liveInd_le_one (st : St) : liveInd st ≤ 1 := by
  unfold liveInd
  split <;> omega

lemma afInd_le_one (st : St) : afInd st ≤ 1 := by
  unfold afInd
  split <;> omega

lemma split_of_singleton {α : Type} {x : α} {l₁ l₂ : List α}
    (h : [x] = l₁ ++ l₂) :
    (l₁ = [] ∧ l₂ = [x]) ∨ (l₁ = [x] ∧ l₂ = []) := by
  cases l₁ with
  | nil => left; exact ⟨rfl, by simpa using h.symm⟩
  | cons y l =>
    right
    injection h with hx hrest
    rcases List.append_eq_nil.mp hrest.symm with ⟨e1, e2⟩
    subst hx e1 e2
    exact ⟨rfl, rfl⟩

lemma split_of_pair {α : Type} {x y : α} {l₁ l₂ : List α}
    (h : [x, y] = l₁ ++ l₂) :
    (l₁ = [] ∧ l₂ = [x, y]) ∨ (l₁ = [x] ∧ l₂ = [y]) ∨
      (l₁ = [x, y] ∧ l₂ = []) := by
  cases l₁ with
  | nil => left; exact ⟨rfl, by simpa using h.symm⟩
  | cons z l =>
    injection h with hx hrest
    subst hx
    rcases split_of_singleton hrest with ⟨e1, e2⟩ | ⟨e1, e2⟩
    · right; left
      subst e1 e2
      exact ⟨rfl, rfl⟩
    · right; right
      subst e1 e2
      exact ⟨rfl, rfl⟩

lemma shape_facts {st st' : St} {ops : List Op} (h : ShapeOK st st' ops) :
    (armCount ops + liveInd st = liveKills ops + liveInd st') ∧
    (armCount ops + afInd st ≤ cancelCount ops + afInd st') ∧
    (∀ l₁ l₂, ops = l₁ ++ l₂ →
      armCount l₁ + afInd st ≤ cancelCount l₁ + 1 ∧
      armCount l₁ + liveInd st ≤ liveKills l₁ + 1) ∧
    (∀ l₁ tid l₂, ops = l₁ ++ Op.arm tid :: l₂ →
      armCount l₁ + liveInd st = liveKills l₁) := by
  have hb1 := liveInd_le_one st
  have hb2 := afInd_le_one st
  rcases h with ⟨hops, hrem⟩ | ⟨hops, hpre, hpost⟩ | ⟨tid0, hops, hpre, hpost⟩ |
    ⟨s, hops, hpre, hpost⟩ | ⟨s, tid0, hops, hpre, hpost⟩
  · -- no timer op
    subst hops
    have he : liveInd st' = liveInd st := by simp [liveInd, hrem]
    have he2 : afInd st' = afInd st := by simp [afInd, hrem]
    refine ⟨by simp [armCount, liveKills, he], by simp [armCount, cancelCount, he2],
      ?_, ?_⟩
    · intro l₁ l₂ hsp
      rcases List.append_eq_nil.mp hsp.symm with ⟨e1, e2⟩
      subst e1
      simp [armCount, cancelCount, liveKills]
      omega
    · intro l₁ tid l₂ hsp
      rcases List.append_eq_nil.mp hsp.symm with ⟨e1, e2⟩
      simp at e2
  · -- self-finish
    subst hops
    have h1 : liveInd st = 1 := by simp [liveInd, hpre]
    have h2 : liveInd st' = 0 := by simp [liveInd, hpost]
    have h3 : afInd st = 1 := by simp [afInd, hpre]
    have h4 : afInd st' = 1 := by simp [afInd, hpost]
    have ca : armCount [Op.finish] = 0 := rfl
    have cc : cancelCount [Op.finish] = 0 := rfl
    have ck : liveKills [Op.finish] = 1 := rfl
    refine ⟨by omega, by omega, ?_, ?_⟩
    · intro l₁ l₂ hsp
      rcases split_of_singleton hsp with ⟨e1, e2⟩ | ⟨e1, e2⟩ <;> subst e1
      · simp [armCount, cancelCount, liveKills]
        omega
      · rw [ca, cc, ck]
        omega
    · intro l₁ tid l₂ hsp
      rcases split_of_singleton hsp with ⟨e1, e2⟩ | ⟨e1, e2⟩
      · simp at e2
      · simp at e2
  · -- arm on an empty or cancelled slot
    subst hops
    have h1 : liveInd st = 0 := by
      rcases hpre with hpre | hpre <;> simp [liveInd, hpre]
    have h3 : afInd st = 0 := by
      rcases hpre with hpre | hpre <;> simp [afInd, hpre]
    have h2 : liveInd st' = 1 := by simp [liveInd, hpost]
    have h4 : afInd st' = 1 := by simp [afInd, hpost]
    have ca : armCount [Op.arm tid0] = 1 := rfl
    have cc : cancelCount [Op.arm tid0] = 0 := rfl
    have ck : liveKills [Op.arm tid0] = 0 := rfl
    refine ⟨by omega, by omega, ?_, ?_⟩
    · intro l₁ l₂ hsp
      rcases split_of_singleton hsp with ⟨e1, e2⟩ | ⟨e1, e2⟩ <;> subst e1
      · simp [armCount, cancelCount, liveKills]
        omega
      · rw [ca, cc, ck]
        omega
    · intro l₁ tid l₂ hsp
      rcases split_of_singleton hsp with ⟨e1, e2⟩ | ⟨e1, e2⟩
      · subst e1
        simp [armCount, liveKills]
        omega
      · simp at e2
  · -- lone cancel call
    subst hops
    cases s with
    | live =>
      have h1 : liveInd st = 1 := by simp [liveInd, hpre]
      have h2 : liveInd st' = 0 := by simp [liveInd, hpost, cancelTask]
      have h3 : afInd st = 1 := by simp [afInd, hpre]
      have h4 : afInd st' = 0 := by simp [afInd, hpost, cancelTask]
      have ca : armCount [Op.cancelCall (decide (TimerStatus.live = TimerStatus.live))] = 0 := rfl
      have cc : cancelCount [Op.cancelCall (decide (TimerStatus.live = TimerStatus.live))] = 1 := rfl
      have ck : liveKills [Op.cancelCall (decide (TimerStatus.live = TimerStatus.live))] = 1 := rfl
      refine ⟨by omega, by omega, ?_, ?_⟩
      · intro l₁ l₂ hsp
        rcases split_of_singleton hsp with ⟨e1, e2⟩ | ⟨e1, e2⟩ <;> subst e1
        · simp [armCount, cancelCount, liveKills]
          omega
        · rw [ca, cc, ck]
          omega
      · intro l₁ tid l₂ hsp
        rcases split_of_singleton hsp with ⟨e1, e2⟩ | ⟨e1, e2⟩
        · simp at e2
        · simp at e2
    | cancelled =>
      have h1 : liveInd st = 0 := by simp [liveInd, hpre]
      have h2 : liveInd st' = 0 := by simp [liveInd, hpost, cancelTask]
      have h3 : afInd st = 0 := by simp [afInd, hpre]
      have h4 : afInd st' = 0 := by simp [afInd, hpost, cancelTask]
      have ca : armCount [Op.cancelCall (decide (TimerStatus.cancelled = TimerStatus.live))] = 0 := rfl
      have cc : cancelCount [Op.cancelCall (decide (TimerStatus.cancelled = TimerStatus.live))] = 1 := rfl
      have ck : liveKills [Op.cancelCall (decide (TimerStatus.cancelled = TimerStatus.live))] = 0 := rfl
      refine ⟨by omega, by omega, ?_, ?_⟩
      · intro l₁ l₂ hsp
        rcases split_of_singleton hsp with ⟨e1, e2⟩ | ⟨e1, e2⟩ <;> subst e1
        · simp [armCount, cancelCount, liveKills]
          omega
        · rw [ca, cc, ck]
          omega
      · intro l₁ tid l₂ hsp
        rcases split_of_singleton hsp with ⟨e1, e2⟩ | ⟨e1, e2⟩
        · simp at e2
        · simp at e2
    | finished =>
      have h1 : liveInd st = 0 := by simp [liveInd, hpre]
      have h2 : liveInd st' = 0 := by simp [liveInd, hpost, cancelTask]
      have h3 : afInd st = 1 := by simp [afInd, hpre]
      have h4 : afInd st' = 1 := by simp [afInd, hpost, cancelTask]
      have ca : armCount [Op.cancelCall (decide (TimerStatus.finished = TimerStatus.live))] = 0 := rfl
      have cc : cancelCount [Op.cancelCall (decide (TimerStatus.finished = TimerStatus.live))] = 1 := rfl
      have ck : liveKills [Op.cancelCall (decide (TimerStatus.finished = TimerStatus.live))] = 0 := rfl
      refine ⟨by omega, by omega, ?_, ?_⟩
      · intro l₁ l₂ hsp
        rcases split_of_singleton hsp with ⟨e1, e2⟩ | ⟨e1, e2⟩ <;> subst e1
        · simp [armCount, cancelCount, liveKills]
          omega
        · rw [ca, cc, ck]
          omega
      · intro l₁ tid l₂ hsp
        rcases split_of_singleton hsp with ⟨e1, e2⟩ | ⟨e1, e2⟩
        · simp at e2
        · simp at e2
  · -- cancel call then arm
    subst hops
    have h2 : liveInd st' = 1 := by simp [liveInd, hpost]
    have h4 : afInd st' = 1 := by simp [afInd, hpost]
    cases s with
    | live =>
      have h1 : liveInd st = 1 := by simp [liveInd, hpre]
      have h3 : afInd st = 1 := by simp [afInd, hpre]
      have ca : armCount [Op.cancelCall (decide (TimerStatus.live = TimerStatus.live)), Op.arm tid0] = 1 := rfl
      have cc : cancelCount [Op.cancelCall (decide (TimerStatus.live = TimerStatus.live)), Op.arm tid0] = 1 := rfl
      have ck : liveKills [Op.cancelCall (decide (TimerStatus.live = TimerStatus.live)), Op.arm tid0] = 1 := rfl
      have ca1 : armCount [Op.cancelCall (decide (TimerStatus.live = TimerStatus.live))] = 0 := rfl
      have cc1 : cancelCount [Op.cancelCall (decide (TimerStatus.live = TimerStatus.live))] = 1 := rfl
      have ck1 : liveKills [Op.cancelCall (decide (TimerStatus.live = TimerStatus.live))] = 1 := rfl
      refine ⟨by omega, by omega, ?_, ?_⟩
      · intro l₁ l₂ hsp
        rcases split_of_pair hsp with ⟨e1, e2⟩ | ⟨e1, e2⟩ | ⟨e1, e2⟩ <;> subst e1
        · simp [armCount, cancelCount, liveKills]
          omega
        · rw [ca1, cc1, ck1]
          omega
        · rw [ca, cc, ck]
          omega
      · intro l₁ tid l₂ hsp
        rcases split_of_pair hsp with ⟨e1, e2⟩ | ⟨e1, e2⟩ | ⟨e1, e2⟩
        · simp at e2
        · subst e1
          rw [ca1, ck1]
          omega
        · simp at e2
    | cancelled =>
      have h1 : liveInd st = 0 := by simp [liveInd, hpre]
      have h3 : afInd st = 0 := by simp [afInd, hpre]
      have ca : armCount [Op.cancelCall (decide (TimerStatus.cancelled = TimerStatus.live)), Op.arm tid0] = 1 := rfl
      have cc : cancelCount [Op.cancelCall (decide (TimerStatus.cancelled = TimerStatus.live)), Op.arm tid0] = 1 := rfl
      have ck : liveKills [Op.cancelCall (decide (TimerStatus.cancelled = TimerStatus.live)), Op.arm tid0] = 0 := rfl
      have ca1 : armCount [Op.cancelCall (decide (TimerStatus.cancelled = TimerStatus.live))] = 0 := rfl
      have cc1 : cancelCount [Op.cancelCall (decide (TimerStatus.cancelled = TimerStatus.live))] = 1 := rfl
      have ck1 : liveKills [Op.cancelCall (decide (TimerStatus.cancelled = TimerStatus.live))] = 0 := rfl
      refine ⟨by omega, by omega, ?_, ?_⟩
      · intro l₁ l₂ hsp
        rcases split_of_pair hsp with ⟨e1, e2⟩ | ⟨e1, e2⟩ | ⟨e1, e2⟩ <;> subst e1
        · simp [armCount, cancelCount, liveKills]
          omega
        · rw [ca1, cc1, ck1]
          omega
        · rw [ca, cc, ck]
          omega
      · intro l₁ tid l₂ hsp
        rcases split_of_pair hsp with ⟨e1, e2⟩ | ⟨e1, e2⟩ | ⟨e1, e2⟩
        · simp at e2
        · subst e1
          rw [ca1, ck1]
          omega
        · simp at e2
    | finished =>
      have h1 : liveInd st = 0 := by simp [liveInd, hpre]
      have h3 : afInd st = 1 := by simp [afInd, hpre]
      have ca : armCount [Op.cancelCall (decide (TimerStatus.finished = TimerStatus.live)), Op.arm tid0] = 1 := rfl
      have cc : cancelCount [Op.cancelCall (decide (TimerStatus.finished = TimerStatus.live)), Op.arm tid0] = 1 := rfl
      have ck : liveKills [Op.cancelCall (decide (TimerStatus.finished = TimerStatus.live)), Op.arm tid0] = 0 := rfl
      have ca1 : armCount [Op.cancelCall (decide (TimerStatus.finished = TimerStatus.live))] = 0 := rfl
      have cc1 : cancelCount [Op.cancelCall (decide (TimerStatus.finished = TimerStatus.live))] = 1 := rfl
      have ck1 : liveKills [Op.cancelCall (decide (TimerStatus.finished = TimerStatus.live))] = 0 := rfl
      refine ⟨by omega, by omega, ?_, ?_⟩
      · intro l₁ l₂ hsp
        rcases split_of_pair hsp with ⟨e1, e2⟩ | ⟨e1, e2⟩ | ⟨e1, e2⟩ <;> subst e1
        · simp [armCount, cancelCount, liveKills]
          omega
        · rw [ca1, cc1, ck1]
          omega
        · rw [ca, cc, ck]
          omega
      · intro l₁ tid l₂ hsp
        rcases split_of_pair hsp with ⟨e1, e2⟩ | ⟨e1, e2⟩ | ⟨e1, e2⟩
        · simp at e2
        · subst e1
          rw [ca1, ck1]
          omega
        · simp at e2

lemma run_cons (st : St) (e : Event) (es : List Event) :
    run st (e :: es) =
      ((run (step st e).1 es).1, (step st e).2.1 ++ (run (step st e).1 es).2) := rfl

lemma armCount_append (a b : List Op) :
    armCount (a ++ b) = armCount a + armCount b := by
  unfold armCount
  exact List.countP_append _ _ _

lemma cancelCount_append (a b : List Op) :
    cancelCount (a ++ b) = cancelCount a + cancelCount b := by
  unfold cancelCount
  exact List.countP_append _ _ _

lemma liveKills_append (a b : List Op) :
    liveKills (a ++ b) = liveKills a + liveKills b := by
  unfold liveKills
  exact List.countP_append _ _ _

lemma run_facts : ∀ (evs : List Event) (st : St),
    (armCount (run st evs).2 + liveInd st =
      liveKills (run st evs).2 + liveInd (run st evs).1) ∧
    (armCount (run st evs).2 + afInd st ≤
      cancelCount (run st evs).2 + afInd (run st evs).1) ∧
    (∀ l₁ l₂, (run st evs).2 = l₁ ++ l₂ →
      armCount l₁ + afInd st ≤ cancelCount l₁ + 1 ∧
      armCount l₁ + liveInd st ≤ liveKills l₁ + 1) ∧
    (∀ l₁ tid l₂, (run st evs).2 = l₁ ++ Op.arm tid :: l₂ →
      armCount l₁ + liveInd st = liveKills l₁) := by
  intro evs
  induction evs with
  | nil =>
    intro st
    have hb1 := liveInd_le_one st
    have hb2 := afInd_le_one st
    refine ⟨rfl, Nat.le_refl _, ?_, ?_⟩
    · intro l₁ l₂ hsp
      have hnil : ([] : List Op) = l₁ ++ l₂ := hsp
      rcases List.append_eq_nil.mp hnil.symm with ⟨e1, e2⟩
      subst e1
      simp [armCount, cancelCount, liveKills]
      omega
    · intro l₁ tid l₂ hsp
      have hnil : ([] : List Op) = l₁ ++ (Op.arm tid :: l₂) := hsp
      rcases List.append_eq_nil.mp hnil.symm with ⟨e1, e2⟩
      simp at e2
  | cons e es ih =>
    intro st
    have sf := shape_facts (step_shape st e)
    have ir := ih (step st e).1
    rw [run_cons st e es]
    simp only []
    refine ⟨?_, ?_, ?_, ?_⟩
    · rw [armCount_append, liveKills_append]
      have s1 := sf.1
      have i1 := ir.1
      omega
    · rw [armCount_append, cancelCount_append]
      have s2 := sf.2.1
      have i2 := ir.2.1
      omega
    · intro l₁ l₂ hsp
      rcases List.append_eq_append_iff.mp hsp with ⟨m, hm1, hm2⟩ | ⟨m, hm1, hm2⟩
      · -- l₁ extends past the step ops: l₁ = stepops ++ m
        subst hm1
        have hi := ir.2.2.1 m l₂ hm2
        have s1 := sf.1
        have s2 := sf.2.1
        rw [armCount_append, cancelCount_append, liveKills_append]
        omega
      · -- l₁ is a prefix of the step ops
        exact sf.2.2.1 l₁ m hm1
    · intro l₁ tid l₂ hsp
      rcases List.append_eq_append_iff.mp hsp with ⟨m, hm1, hm2⟩ | ⟨m, hm1, hm2⟩
      · subst hm1
        have hi := ir.2.2.2 m tid l₂ hm2
        have s1 := sf.1
        rw [armCount_append, liveKills_append]
        omega
      · -- the arm sits inside the step ops, or right at its start
        cases m with
        | nil =>
          rw [List.append_nil] at hm1
          subst hm1
          have hrest : (run (step st e).1 es).2 = [] ++ Op.arm tid :: l₂ := by
            simpa using hm2.symm
          have hi := ir.2.2.2 [] tid l₂ hrest
          have s1 := sf.1
          have h0a : armCount ([] : List Op) = 0 := rfl
          have h0k : liveKills ([] : List Op) = 0 := rfl
          omega
        | cons x m =>
          injection hm2 with h1 h2
          subst h1
          exact sf.2.2.2 l₁ tid m hm1

/-- C1: over every event sequence from the initial state, writing the
run's timer-operation trace as any prefix followed by a suffix: the
prefix never has more than one arm in excess of the cancel calls
(arms − cancels ≤ 1), never has more than one timer armed-and-not-yet-dead
(arms − live-kills ≤ 1, i.e. at most one reminder timer is outstanding at
any instant), and at the moment any arm is performed every previously
armed timer has already been cancelled or has terminated (arms =
live-kills just before each arm). -/
theorem timer_invariant (evs : List Event) :
    (∀ l₁ l₂, (run init evs).2 = l₁ ++ l₂ →
      armCount l₁ ≤ cancelCount l₁ + 1 ∧ armCount l₁ ≤ liveKills l₁ + 1) ∧
    (∀ l₁ tid l₂, (run init evs).2 = l₁ ++ Op.arm tid :: l₂ →
      armCount l₁ = liveKills l₁) := by
  have h := run_facts evs init
  have hli : liveInd init = 0 := rfl
  have haf : afInd init = 0 := rfl
  constructor
  · intro l₁ l₂ hsp
    have := h.2.2.1 l₁ l₂ hsp
    omega
  · intro l₁ tid l₂ hsp
    have := h.2.2.2 l₁ tid l₂ hsp
    omega

/-- Witness for C1 on the morning-submission-then-done scenario: its
trace is arm, cancel, arm; at every prefix arms − cancels ≤ 1 and at the
final arm the previously armed timer is already dead. -/
theorem timer_invariant_witness :
    (armCount [Op.arm "", Op.cancelCall true] ≤
        cancelCount [Op.arm "", Op.cancelCall true] + 1 ∧
      armCount [Op.arm "", Op.cancelCall true] ≤
        liveKills [Op.arm "", Op.cancelCall true] + 1) ∧
    armCount [Op.arm "", Op.cancelCall true] =
      liveKills [Op.arm "", Op.cancelCall true] :=
  ⟨(timer_invariant [Event.message "a\nb", Event.callback "done:"]).1
      [Op.arm "", Op.cancelCall true] [Op.arm "i"] rfl,
   (timer_invariant [Event.message "a\nb", Event.callback "done:"]).2
      [Op.arm "", Op.cancelCall true] "i" [] rfl⟩

end Wigglebot
